import Mathlib

/-!
Verification of the py_moex client library (src/py_moex.py).

The file shallowly embeds the pure logic of the library in Lean:

* Python `datetime` values (second precision, as used throughout the source)
  become the `DateTime` structure, ordered lexicographically by
  (year, month, day, hour, minute, second), exactly as Python compares them.
* `timedelta(days=1)` addition becomes `nextDay`; `timedelta(hours=1) -
  timedelta(seconds=1)` addition becomes `addSeconds _ 3599`;
  `timedelta(minutes=15)` subtraction becomes `subMinutes15`.
* The HTTP transport is abstracted as an oracle: each request site receives an
  `ApiResponse` value, either `reqErr` (a `requests.RequestException`
  actually raised: connection failure, timeout, non-2xx status raised by
  `raise_for_status`, or a JSON decode error, all of which are subclasses of
  `RequestException` in current `requests`) or `ok data` (the already
  extracted `<section>.data` list of rows of JSON values).
* A Python function that can raise an exception which the function itself does
  not catch becomes a Lean function into `Except String _`; a caught
  exception is visible as a non-`error` branch of the translation.
-/

set_option autoImplicit false

namespace PyMoex

instance exceptDecEq {ε α : Type} [DecidableEq ε] [DecidableEq α] :
    DecidableEq (Except ε α) := fun x y =>
  match x, y with
  | .ok a, .ok b =>
    if h : a = b then .isTrue (congrArg Except.ok h)
    else .isFalse (fun hc => h (Except.ok.inj hc))
  | .error a, .error b =>
    if h : a = b then .isTrue (congrArg Except.error h)
    else .isFalse (fun hc => h (Except.error.inj hc))
  | .ok _, .error _ => .isFalse (fun hc => Except.noConfusion hc)
  | .error _, .ok _ => .isFalse (fun hc => Except.noConfusion hc)

/-- A JSON scalar as it appears in MOEX response rows: a number (JSON numbers
are decimal; modelled exactly as rationals), a string, or `null`. -/
inductive JVal where
  | jnum (q : Rat)
  | jstr (s : String)
  | jnull
  deriving DecidableEq

/-- Python `datetime` restricted to second precision (the library never uses
microseconds: every datetime it builds or formats has whole seconds). -/
structure DateTime where
  year : Nat
  month : Nat
  day : Nat
  hour : Nat
  minute : Nat
  second : Nat
  deriving DecidableEq

/-- Python `datetime.__lt__`: lexicographic comparison of the fields. -/
def dtLt (a b : DateTime) : Bool :=
  decide (a.year < b.year ∨ (a.year = b.year ∧
    (a.month < b.month ∨ (a.month = b.month ∧
      (a.day < b.day ∨ (a.day = b.day ∧
        (a.hour < b.hour ∨ (a.hour = b.hour ∧
          (a.minute < b.minute ∨ (a.minute = b.minute ∧
            a.second < b.second))))))))))

/-- Python `datetime.__le__` (for a total order, `a <= b` iff `not (b < a)`). -/
def dtLe (a b : DateTime) : Bool :=
  !(dtLt b a)

theorem dtLt_iff (a b : DateTime) : dtLt a b = true ↔
    (a.year < b.year ∨ (a.year = b.year ∧
      (a.month < b.month ∨ (a.month = b.month ∧
        (a.day < b.day ∨ (a.day = b.day ∧
          (a.hour < b.hour ∨ (a.hour = b.hour ∧
            (a.minute < b.minute ∨ (a.minute = b.minute ∧
              a.second < b.second)))))))))) := by
  simp [dtLt]

theorem dtLe_iff (a b : DateTime) : dtLe a b = true ↔ ¬ dtLt b a = true := by
  simp [dtLe]

/-- Gregorian leap-year rule, as in Python's `calendar`/`datetime`. -/
def isLeapYear (y : Nat) : Bool :=
  y % 4 == 0 && (y % 100 != 0 || y % 400 == 0)

/-- Number of days of month `m` of year `y`. -/
def daysInMonth (y m : Nat) : Nat :=
  if m = 2 then (if isLeapYear y then 29 else 28)
  else if m = 4 ∨ m = 6 ∨ m = 9 ∨ m = 11 then 30
  else 31

/-- `d + timedelta(days=1)` for a second-precision datetime. -/
def nextDay (d : DateTime) : DateTime :=
  if d.day < daysInMonth d.year d.month then { d with day := d.day + 1 }
  else if d.month < 12 then { d with month := d.month + 1, day := 1 }
  else { d with year := d.year + 1, month := 1, day := 1 }

theorem dtLt_nextDay (d : DateTime) : dtLt d (nextDay d) = true := by
  rw [dtLt_iff]
  unfold nextDay
  split
  · simp
  · split <;> simp

/-- Iterated `nextDay` (used to carry whole days when adding seconds). -/
def addDaysN (d : DateTime) : Nat → DateTime
  | 0 => d
  | n + 1 => addDaysN (nextDay d) n

/-- `d + timedelta(seconds=n)`: exact calendar arithmetic on a
second-precision datetime. -/
def addSeconds (d : DateTime) (n : Nat) : DateTime :=
  let total := d.hour * 3600 + d.minute * 60 + d.second + n
  let base := addDaysN { d with hour := 0, minute := 0, second := 0 } (total / 86400)
  { base with
      hour := total % 86400 / 3600
      minute := total % 86400 % 3600 / 60
      second := total % 86400 % 60 }

theorem addSeconds_3599 (y m d h : Nat) (hh : h < 24) :
    addSeconds ⟨y, m, d, h, 0, 0⟩ 3599 = ⟨y, m, d, h, 59, 59⟩ := by
  have h1 : (h * 3600 + 0 * 60 + 0 + 3599) / 86400 = 0 := by omega
  simp only [addSeconds, h1, addDaysN]
  have h2 : (h * 3600 + 0 * 60 + 0 + 3599) % 86400 = h * 3600 + 3599 := by omega
  rw [h2]
  have h3 : (h * 3600 + 3599) / 3600 = h := by omega
  have h4 : (h * 3600 + 3599) % 3600 = 3599 := by omega
  rw [h3, h4]
  simp only [DateTime.mk.injEq]
  refine ⟨by trivial, by trivial, by trivial, by trivial, by norm_num, by omega⟩

/-- A per-hour request window (`start_time`, `end_time` in `get_candles`). -/
structure Window where
  startTime : DateTime
  endTime : DateTime
  deriving DecidableEq

/-- `current_start.replace(hour=h, minute=0, second=0)`. -/
def replaceHMS (cur : DateTime) (h : Nat) : DateTime :=
  ⟨cur.year, cur.month, cur.day, h, 0, 0⟩

/-- The inner `for hour in range(10, 24)` loop of `get_candles`
(src/py_moex.py lines 107-112): for each hour it forms the window
`[start_time, start_time + 1h - 1s]` and `break`s out of the whole day as soon
as `start_time > end_date`. -/
def hourWindows (cur endd : DateTime) : List Nat → List Window
  | [] => []
  | h :: rest =>
    let s := replaceHMS cur h
    if dtLt endd s then []
    else ⟨s, addSeconds s 3599⟩ :: hourWindows cur endd rest

/-- The outer `while current_start <= end_date` loop of `get_candles`
(src/py_moex.py lines 106-136), with an explicit fuel bounding the number of
day iterations.  Any fuel at least the number of days actually iterated gives
the loop's value; `plan` below always supplies a sufficient fuel. -/
def planLoop (endd : DateTime) : Nat → DateTime → List Window
  | 0, _ => []
  | fuel + 1, cur =>
    if dtLe cur endd then
      hourWindows cur endd (List.range' 10 14) ++ planLoop endd fuel (nextDay cur)
    else []

/-- Monotone day counter used only to size the fuel of `planLoop`: for valid
calendar dates it increases by at least 1 at every `nextDay` step and respects
the datetime order, so `rdProxy endd + 2 - rdProxy start` day iterations
always suffice for the `while` loop to reach its exit condition. -/
def rdProxy (d : DateTime) : Nat :=
  d.year * 372 + d.month * 31 + d.day

/-- The window-planning loop of `get_candles`: the ordered list of per-hour
request windows the function will query for the range
[`start_date`, `end_date`]. -/
def plan (start_date end_date : DateTime) : List Window :=
  planLoop end_date (rdProxy end_date + 2 - rdProxy start_date) start_date

end PyMoex

namespace PyMoex

theorem dtLt_irrefl (d : DateTime) : dtLt d d = false := by
  simp [dtLt]

theorem dtLe_refl (d : DateTime) : dtLe d d = true := by
  simp [dtLe, dtLt_irrefl]

/-- If no hour in the list trips the `break` condition, the day's loop emits
one window per hour. -/
theorem hourWindows_all (cur endd : DateTime) (hrs : List Nat)
    (h : ∀ a ∈ hrs, dtLt endd (replaceHMS cur a) = false) :
    hourWindows cur endd hrs =
      hrs.map (fun a => ⟨replaceHMS cur a, addSeconds (replaceHMS cur a) 3599⟩) := by
  induction hrs with
  | nil => rfl
  | cons a rest ih =>
    have ha := h a (by simp)
    simp only [hourWindows, ha, Bool.false_eq_true, if_false, List.map_cons]
    exact congrArg _ (ih fun b hb => h b (List.mem_cons_of_mem a hb))

/-- Core computation for claim C1: planning a range that starts and ends at the
final second of one calendar day yields exactly the 14 hour windows of that
day. -/
theorem plan_single_day_eq (y m d : Nat) :
    plan ⟨y, m, d, 23, 59, 59⟩ ⟨y, m, d, 23, 59, 59⟩ =
      (List.range' 10 14).map
        (fun h => ⟨⟨y, m, d, h, 0, 0⟩, ⟨y, m, d, h, 59, 59⟩⟩) := by
  have hfuel : rdProxy ⟨y, m, d, 23, 59, 59⟩ + 2 - rdProxy ⟨y, m, d, 23, 59, 59⟩ = 2 := by
    omega
  unfold plan
  rw [hfuel]
  have hguard := dtLe_refl (⟨y, m, d, 23, 59, 59⟩ : DateTime)
  have hnext : dtLe (nextDay ⟨y, m, d, 23, 59, 59⟩) ⟨y, m, d, 23, 59, 59⟩ = false := by
    simp [dtLe, dtLt_nextDay]
  simp only [planLoop, hguard, if_true, hnext, Bool.false_eq_true, if_false,
    List.append_nil]
  have hall : ∀ a ∈ List.range' 10 14,
      dtLt ⟨y, m, d, 23, 59, 59⟩ (replaceHMS ⟨y, m, d, 23, 59, 59⟩ a) = false := by
    intro a ha
    have : 10 ≤ a ∧ a < 24 := by
      have := List.mem_range'_1.mp ha
      omega
    simp only [replaceHMS, dtLt, decide_eq_false_iff_not]
    simp
    omega
  rw [hourWindows_all _ _ _ hall]
  apply List.map_congr_left
  intro a ha
  have hlt : a < 24 := by
    have := List.mem_range'_1.mp ha
    omega
  simp only [replaceHMS]
  rw [addSeconds_3599 y m d a hlt]

/-- Seconds elapsed since midnight of the datetime's own day. -/
def secOfDay (d : DateTime) : Nat :=
  d.hour * 3600 + d.minute * 60 + d.second

/-- C1 (counterexample): for the single calendar day 2024-12-18 taken as the
datetime `2024-12-18 00:00:00` (a Python `datetime(2024, 12, 18)`, as in the
repository's own example script), the window-planning loop of `get_candles`
emits no window at all, not 14: the first hour window starts at 10:00:00,
which already exceeds the end bound, so the day is dropped. -/
theorem c1_plan_midnight_counterexample :
    plan ⟨2024, 12, 18, 0, 0, 0⟩ ⟨2024, 12, 18, 0, 0, 0⟩ = [] ∧
    (plan ⟨2024, 12, 18, 0, 0, 0⟩ ⟨2024, 12, 18, 0, 0, 0⟩).length ≠ 14 := by
  decide

/-- C1 (amended): for any calendar day, the window-planning loop of
`get_candles` run with both bounds at the day's final second 23:59:59
produces exactly 14 request windows, one per hour 10 through 23, each spanning
hour:00:00 to hour:59:59 of that day (exactly 3599 seconds wide), in strictly
increasing start order.  (With both bounds at 00:00:00 of the day it produces
no windows, see the counterexample.) -/
theorem c1_plan_single_day_amended (y m d : Nat) :
    (plan ⟨y, m, d, 23, 59, 59⟩ ⟨y, m, d, 23, 59, 59⟩).length = 14 ∧
    plan ⟨y, m, d, 23, 59, 59⟩ ⟨y, m, d, 23, 59, 59⟩ =
      (List.range' 10 14).map
        (fun h => ⟨⟨y, m, d, h, 0, 0⟩, ⟨y, m, d, h, 59, 59⟩⟩) ∧
    (∀ w ∈ plan ⟨y, m, d, 23, 59, 59⟩ ⟨y, m, d, 23, 59, 59⟩, ∃ h, 10 ≤ h ∧ h < 24 ∧
      w.startTime = ⟨y, m, d, h, 0, 0⟩ ∧ w.endTime = ⟨y, m, d, h, 59, 59⟩ ∧
      secOfDay w.endTime - secOfDay w.startTime = 3599) ∧
    List.Chain' (fun a b => dtLt a.startTime b.startTime = true)
      (plan ⟨y, m, d, 23, 59, 59⟩ ⟨y, m, d, 23, 59, 59⟩) := by
  have key := plan_single_day_eq y m d
  refine ⟨by rw [key]; simp, key, ?_, ?_⟩
  · intro w hw
    rw [key, List.mem_map] at hw
    obtain ⟨h, hh, rfl⟩ := hw
    have hb := List.mem_range'_1.mp hh
    exact ⟨h, by omega, by omega, rfl, rfl, by simp only [secOfDay]; omega⟩
  · rw [key]
    have hr : List.range' 10 14 = [10, 11, 12, 13, 14, 15, 16, 17, 18, 19, 20, 21, 22, 23] := rfl
    rw [hr]
    simp only [List.map_cons, List.map_nil, List.chain'_cons, List.chain'_singleton]
    simp [dtLt]

/-- Every window emitted by the day's hour loop has its start within the end
bound: the loop breaks before emitting a window whose start exceeds it. -/
theorem hourWindows_start_le (cur endd : DateTime) (hrs : List Nat) (w : Window)
    (hw : w ∈ hourWindows cur endd hrs) : dtLe w.startTime endd = true := by
  induction hrs with
  | nil => simp [hourWindows] at hw
  | cons a rest ih =>
    simp only [hourWindows] at hw
    by_cases hc : dtLt endd (replaceHMS cur a) = true
    · simp [hc] at hw
    · rw [if_neg hc] at hw
      rcases List.mem_cons.mp hw with h1 | h2
      · subst h1
        simp [dtLe]
        simpa using hc
      · exact ih h2

/-- Every window emitted by the full day-by-day loop has its start within the
end bound. -/
theorem planLoop_start_le (endd : DateTime) (fuel : Nat) (cur : DateTime) (w : Window)
    (hw : w ∈ planLoop endd fuel cur) : dtLe w.startTime endd = true := by
  induction fuel generalizing cur with
  | zero => simp [planLoop] at hw
  | succ n ih =>
    simp only [planLoop] at hw
    by_cases hg : dtLe cur endd = true
    · rw [if_pos hg] at hw
      rcases List.mem_append.mp hw with h1 | h2
      · exact hourWindows_start_le _ _ _ _ h1
      · exact ih _ h2
    · rw [if_neg hg] at hw
      simp at hw

/-- The day's hour loop emits windows for a contiguous leading run of the
hours it is given: once the break fires, all remaining hours are dropped. -/
theorem hourWindows_eq_run (cur endd : DateTime) :
    ∀ (n a : Nat), ∃ k, k ≤ n ∧
      hourWindows cur endd (List.range' a n) =
        (List.range' a k).map
          (fun h => ⟨replaceHMS cur h, addSeconds (replaceHMS cur h) 3599⟩) := by
  intro n
  induction n with
  | zero => exact fun a => ⟨0, le_rfl, rfl⟩
  | succ n ih =>
    intro a
    rw [List.range'_succ]
    by_cases hc : dtLt endd (replaceHMS cur a) = true
    · refine ⟨0, Nat.zero_le _, ?_⟩
      simp [hourWindows, hc]
    · obtain ⟨k, hk, heq⟩ := ih (a + 1)
      refine ⟨k + 1, by omega, ?_⟩
      rw [List.range'_succ, List.map_cons]
      simp only [hourWindows, if_neg hc]
      exact congrArg _ heq

/-- C3: for startDate <= endDate, every window emitted by the window planner
of `get_candles` starts no later than endDate, and on each day the emitted
windows form a contiguous leading run of the hours 10..23: once a window's
start exceeds endDate the rest of the day's hours are dropped entirely. -/
theorem c3_plan_never_exceeds_end (s e : DateTime) (hse : dtLe s e = true) :
    (∀ w ∈ plan s e, dtLe w.startTime e = true) ∧
    (∀ cur, ∃ k, k ≤ 14 ∧
      hourWindows cur e (List.range' 10 14) =
        (List.range' 10 k).map
          (fun h => ⟨replaceHMS cur h, addSeconds (replaceHMS cur h) 3599⟩)) := by
  refine ⟨fun w hw => planLoop_start_le _ _ _ _ hw, fun cur => hourWindows_eq_run cur e 14 10⟩

/-- C3 witness: the bound and the run property at a concrete range
(2024-12-18 10:00:00 to 2024-12-18 11:30:00). -/
theorem c3_plan_never_exceeds_end_witness :
    dtLe ⟨2024, 12, 18, 10, 0, 0⟩ ⟨2024, 12, 18, 11, 30, 0⟩ = true ∧
    ((∀ w ∈ plan ⟨2024, 12, 18, 10, 0, 0⟩ ⟨2024, 12, 18, 11, 30, 0⟩,
        dtLe w.startTime ⟨2024, 12, 18, 11, 30, 0⟩ = true) ∧
      (∀ cur, ∃ k, k ≤ 14 ∧
        hourWindows cur ⟨2024, 12, 18, 11, 30, 0⟩ (List.range' 10 14) =
          (List.range' 10 k).map
            (fun h => ⟨replaceHMS cur h, addSeconds (replaceHMS cur h) 3599⟩))) :=
  ⟨by decide, c3_plan_never_exceeds_end ⟨2024, 12, 18, 10, 0, 0⟩ ⟨2024, 12, 18, 11, 30, 0⟩ (by decide)⟩

/-- `%y%m%d` formatting of the date part (`start_time.strftime("%y%m%d")`). -/
def pad2 (n : Nat) : String :=
  if n < 10 then "0" ++ toString n else toString n

def fmtYYMMDD (d : DateTime) : String :=
  pad2 (d.year % 100) ++ pad2 d.month ++ pad2 d.day

/-- Python `str.split()` with no argument: split on runs of whitespace,
producing no empty tokens.  Restricted to the space character, the only
whitespace appearing in MOEX begin timestamps. -/
def pySplitAux : List Char → List Char → List (List Char)
  | [], acc => if acc = [] then [] else [acc.reverse]
  | c :: rest, acc =>
    if c = ' ' then
      (if acc = [] then pySplitAux rest [] else acc.reverse :: pySplitAux rest [])
    else pySplitAux rest (c :: acc)

def pySplit (s : String) : List String :=
  (pySplitAux s.data []).map (fun cs => ⟨cs⟩)

/-- Python `str.replace(":", "")`: drop every colon. -/
def removeColons (s : String) : String :=
  ⟨s.data.filter (fun c => c ≠ ':')⟩

/-- The outcome of one `requests.get(...)` call together with status check,
JSON decoding and section extraction, as observed by the calling code:
either a raised `requests.RequestException` (connection failure, timeout,
non-2xx status from `raise_for_status`, or a JSON decode error - all
`RequestException` subclasses), or the `<section>.data` list of rows. -/
inductive ApiResponse where
  | reqErr
  | ok (data : List (List JVal))
  deriving DecidableEq

/-- One row of the output table of `get_candles` (`all_data.append([...])` at
src/py_moex.py lines 126-132; columns TICKER, PER, DATE, TIME, OPEN, HIGH,
LOW, CLOSE, VOL). -/
structure CanonicalRow where
  ticker : String
  per : Nat
  date : String
  time : String
  openF : JVal
  highF : JVal
  lowF : JVal
  closeF : JVal
  volF : JVal
  deriving DecidableEq

/-- Normalization of one raw candle (the body of the `for candle in data`
loop, src/py_moex.py lines 125-132).  An `error` value models a Python
exception that the surrounding `try` does not catch (its `except` clause
covers `requests.exceptions.RequestException` only): an `IndexError` from
`candle[6]` or `split()[1]`, or an `AttributeError` when `candle[6]` is not a
string.  Evaluation order follows the source: `candle[6].split()[1]` is
evaluated before `candle[0]`, `candle[2]`, `candle[3]`, `candle[1]`,
`candle[5]`. -/
def normalizeCandle (ticker : String) (interval : Nat) (start_time : DateTime)
    (candle : List JVal) : Except String CanonicalRow :=
  match candle.get? 6 with
  | none => .error "IndexError: list index out of range"
  | some (.jstr s) =>
    match (pySplit s).get? 1 with
    | none => .error "IndexError: list index out of range"
    | some part =>
      match candle.get? 0, candle.get? 2, candle.get? 3, candle.get? 1, candle.get? 5 with
      | some c0, some c2, some c3, some c1, some c5 =>
        .ok ⟨ticker, interval, fmtYYMMDD start_time, removeColons part, c0, c2, c3, c1, c5⟩
      | _, _, _, _, _ => .error "IndexError: list index out of range"
  | some _ => .error "AttributeError"

/-- Normalization of all raw candles of one response, in response order; the
first uncaught exception aborts. -/
def normalizeAll (ticker : String) (interval : Nat) (start_time : DateTime) :
    List (List JVal) → Except String (List CanonicalRow)
  | [] => .ok []
  | c :: cs =>
    match normalizeCandle ticker interval start_time c with
    | .error e => .error e
    | .ok r =>
      match normalizeAll ticker interval start_time cs with
      | .error e => .error e
      | .ok rs => .ok (r :: rs)

/-- Processing of one window inside the `try`/`except` of `get_candles`
(src/py_moex.py lines 120-134): a raised `RequestException` is caught and
logged, contributing no rows; a successful response has its `candles.data`
rows normalized, and any other exception propagates. -/
def processWindow (ticker : String) (interval : Nat) (w : Window)
    (resp : ApiResponse) : Except String (List CanonicalRow) :=
  match resp with
  | .reqErr => .ok []
  | .ok data => normalizeAll ticker interval w.startTime data

/-- The per-window fetch loop of `get_candles`: windows are processed in
order, each appending its rows to the accumulated table. -/
def fetchWindows (ticker : String) (interval : Nat) (resp : Window → ApiResponse) :
    List Window → Except String (List CanonicalRow)
  | [] => .ok []
  | w :: ws =>
    match processWindow ticker interval w (resp w) with
    | .error e => .error e
    | .ok rows =>
      match fetchWindows ticker interval resp ws with
      | .error e => .error e
      | .ok rest => .ok (rows ++ rest)

/-- `get_candles` (src/py_moex.py lines 71-138) after instrument resolution:
the window-planning loop followed by the per-window fetch/normalize/append
loop.  The HTTP transport is the oracle `resp`; the returned list is the row
list of the produced DataFrame, in request order. -/
def get_candles (ticker : String) (start_date end_date : DateTime) (interval : Nat)
    (resp : Window → ApiResponse) : Except String (List CanonicalRow) :=
  fetchWindows ticker interval resp (plan start_date end_date)

/-- A window's response is benign: either a caught `RequestException`, or a
response all of whose candles normalize without an uncaught exception. -/
def goodWindow (ticker : String) (interval : Nat) (w : Window) (r : ApiResponse) : Bool :=
  match r with
  | .reqErr => true
  | .ok data => data.all (fun c => (normalizeCandle ticker interval w.startTime c).toOption.isSome)

/-- The rows a window contributes to the output table: none for a caught
`RequestException`, the normalized candles otherwise. -/
def windowRows (ticker : String) (interval : Nat) (w : Window) (r : ApiResponse) :
    List CanonicalRow :=
  match r with
  | .reqErr => []
  | .ok data => data.filterMap (fun c => (normalizeCandle ticker interval w.startTime c).toOption)

/-- When every candle of a response normalizes, `normalizeAll` returns all of
them, in order. -/
theorem normalizeAll_eq_filterMap (t : String) (i : Nat) (st : DateTime)
    (data : List (List JVal))
    (h : ∀ c ∈ data, (normalizeCandle t i st c).toOption.isSome = true) :
    normalizeAll t i st data =
      .ok (data.filterMap (fun c => (normalizeCandle t i st c).toOption)) := by
  induction data with
  | nil => rfl
  | cons c cs ih =>
    have hc := h c (by simp)
    cases hnc : normalizeCandle t i st c with
    | error e => rw [hnc] at hc; simp [Except.toOption] at hc
    | ok r =>
      simp only [normalizeAll, hnc]
      rw [ih (fun c' hc' => h c' (List.mem_cons_of_mem c hc'))]
      simp [List.filterMap_cons, hnc, Except.toOption]

/-- A benign window is processed without an uncaught exception and
contributes exactly its `windowRows`. -/
theorem processWindow_good (t : String) (i : Nat) (w : Window) (r : ApiResponse)
    (h : goodWindow t i w r = true) :
    processWindow t i w r = .ok (windowRows t i w r) := by
  cases r with
  | reqErr => rfl
  | ok data =>
    simp only [goodWindow, List.all_eq_true] at h
    exact normalizeAll_eq_filterMap _ _ _ _ h

/-- When every window's response is benign, the fetch loop completes and
returns the concatenation, in window order, of each window's rows. -/
theorem fetchWindows_good (t : String) (i : Nat) (resp : Window → ApiResponse)
    (ws : List Window)
    (h : ∀ w ∈ ws, goodWindow t i w (resp w) = true) :
    fetchWindows t i resp ws =
      .ok (ws.flatMap (fun w => windowRows t i w (resp w))) := by
  induction ws with
  | nil => rfl
  | cons w ws ih =>
    simp only [fetchWindows]
    rw [processWindow_good _ _ _ _ (h w (by simp))]
    rw [ih (fun w' hw' => h w' (List.mem_cons_of_mem w hw'))]
    simp [List.flatMap_cons]

/-- C2 (amended): per-window errors of the `requests.RequestException` class
(transport failure, timeout, non-2xx status, undecodable JSON body) are
caught and logged by `get_candles`; such a window contributes no rows and the
fetch continues, so no such failure prevents rows from other windows from
appearing, in window order.  However - in correction of the claim - an
unexpectedly SHAPED successful response (a candle row that is too short, or
whose begin field at index 6 is not a string with a date and a time part)
raises an exception outside the caught class and aborts the whole fetch; the
hypothesis here therefore excludes only that case (see the counterexample). -/
theorem c2_resilience_amended (ticker : String) (interval : Nat) (s e : DateTime)
    (resp : Window → ApiResponse)
    (h : ∀ w ∈ plan s e, goodWindow ticker interval w (resp w) = true) :
    get_candles ticker s e interval resp =
      .ok ((plan s e).flatMap (fun w => windowRows ticker interval w (resp w))) :=
  fetchWindows_good ticker interval resp (plan s e) h

/-- C2 (witness): a concrete two-window fetch in which the first window's
request raises a `RequestException`: the fetch still succeeds and returns
exactly the second window's row. -/
theorem c2_resilience_amended_witness :
    (∀ w ∈ plan ⟨2024, 12, 18, 10, 0, 0⟩ ⟨2024, 12, 18, 11, 30, 0⟩,
      goodWindow "LKOH" 1 w
        ((fun w' => if w'.startTime.hour = 10 then ApiResponse.reqErr
          else ApiResponse.ok [[JVal.jnum 100, JVal.jnum 101, JVal.jnum 102, JVal.jnum 99,
            JVal.jnum 5, JVal.jnum 70, JVal.jstr "2024-12-18 11:00:00"]]) w) = true) ∧
    get_candles "LKOH" ⟨2024, 12, 18, 10, 0, 0⟩ ⟨2024, 12, 18, 11, 30, 0⟩ 1
      (fun w' => if w'.startTime.hour = 10 then ApiResponse.reqErr
        else ApiResponse.ok [[JVal.jnum 100, JVal.jnum 101, JVal.jnum 102, JVal.jnum 99,
          JVal.jnum 5, JVal.jnum 70, JVal.jstr "2024-12-18 11:00:00"]]) =
      .ok ((plan ⟨2024, 12, 18, 10, 0, 0⟩ ⟨2024, 12, 18, 11, 30, 0⟩).flatMap
        (fun w => windowRows "LKOH" 1 w
          ((fun w' => if w'.startTime.hour = 10 then ApiResponse.reqErr
            else ApiResponse.ok [[JVal.jnum 100, JVal.jnum 101, JVal.jnum 102, JVal.jnum 99,
              JVal.jnum 5, JVal.jnum 70, JVal.jstr "2024-12-18 11:00:00"]]) w))) :=
  ⟨by decide,
    c2_resilience_amended "LKOH" 1 ⟨2024, 12, 18, 10, 0, 0⟩ ⟨2024, 12, 18, 11, 30, 0⟩ _
      (by decide)⟩

/-- C2 (counterexample): the claim also covers unexpectedly shaped responses,
but those are NOT caught.  Concretely: two windows, the first returning a
well-formed JSON body whose single candle has a number (not a string) in the
begin-timestamp position, the second returning a perfectly good candle.  The
fetch aborts with an uncaught `AttributeError`-style failure and the second
window's row (shown normalizable on its own) never appears. -/
theorem c2_uncaught_shape_error_counterexample :
    get_candles "LKOH" ⟨2024, 12, 18, 10, 0, 0⟩ ⟨2024, 12, 18, 11, 30, 0⟩ 1
      (fun w => if w.startTime.hour = 10
        then ApiResponse.ok [[JVal.jnum 100, JVal.jnum 101, JVal.jnum 102, JVal.jnum 99,
          JVal.jnum 5, JVal.jnum 70, JVal.jnum 0]]
        else ApiResponse.ok [[JVal.jnum 100, JVal.jnum 101, JVal.jnum 102, JVal.jnum 99,
          JVal.jnum 5, JVal.jnum 70, JVal.jstr "2024-12-18 11:00:00"]]) =
      .error "AttributeError" ∧
    processWindow "LKOH" 1 ⟨⟨2024, 12, 18, 11, 0, 0⟩, ⟨2024, 12, 18, 11, 59, 59⟩⟩
      (ApiResponse.ok [[JVal.jnum 100, JVal.jnum 101, JVal.jnum 102, JVal.jnum 99,
        JVal.jnum 5, JVal.jnum 70, JVal.jstr "2024-12-18 11:00:00"]]) =
      .ok [⟨"LKOH", 1, "241218", "110000", JVal.jnum 100, JVal.jnum 102, JVal.jnum 99,
        JVal.jnum 101, JVal.jnum 70⟩] := by
  decide

/-- Inversion of `normalizeCandle`: a successfully produced row carries the
caller's ticker and interval, the window-start date formatted yyMMdd, the
begin timestamp's time part with colons removed, and the raw fields at wire
indices 0, 2, 3, 1, 5. -/
theorem normalizeCandle_ok_fields (t : String) (i : Nat) (st : DateTime)
    (c : List JVal) (row : CanonicalRow)
    (h : normalizeCandle t i st c = .ok row) :
    ∃ ts part, c.get? 6 = some (.jstr ts) ∧ (pySplit ts).get? 1 = some part ∧
      row.ticker = t ∧ row.per = i ∧
      row.date = fmtYYMMDD st ∧ row.time = removeColons part ∧
      c.get? 0 = some row.openF ∧ c.get? 2 = some row.highF ∧
      c.get? 3 = some row.lowF ∧ c.get? 1 = some row.closeF ∧
      c.get? 5 = some row.volF := by
  unfold normalizeCandle at h
  split at h
  · exact Except.noConfusion h
  · rename_i s h6
    split at h
    · exact Except.noConfusion h
    · rename_i part h1
      split at h
      · rename_i c0 c2 c3 c1 c5 h0 h2 h3 hc1 h5
        cases Except.ok.inj h
        exact ⟨s, part, h6, h1, rfl, rfl, rfl, rfl, h0, h2, h3, hc1, h5⟩
      · exact Except.noConfusion h
  · exact Except.noConfusion h

/-- Inversion of `normalizeAll`: each produced row comes from some candle of
the response. -/
theorem normalizeAll_ok_mem (t : String) (i : Nat) (st : DateTime)
    (data : List (List JVal)) (rows : List CanonicalRow) (r : CanonicalRow)
    (h : normalizeAll t i st data = .ok rows) (hr : r ∈ rows) :
    ∃ c ∈ data, normalizeCandle t i st c = .ok r := by
  induction data generalizing rows with
  | nil =>
    simp only [normalizeAll] at h
    cases Except.ok.inj h
    simp at hr
  | cons c cs ih =>
    simp only [normalizeAll] at h
    cases hnc : normalizeCandle t i st c with
    | error e => rw [hnc] at h; exact Except.noConfusion h
    | ok r0 =>
      rw [hnc] at h
      cases hcs : normalizeAll t i st cs with
      | error e => rw [hcs] at h; exact Except.noConfusion h
      | ok rs =>
        rw [hcs] at h
        cases Except.ok.inj h
        rcases List.mem_cons.mp hr with h1 | h2
        · exact ⟨c, by simp, h1 ▸ hnc⟩
        · obtain ⟨c', hc', hok⟩ := ih rs hcs h2
          exact ⟨c', List.mem_cons_of_mem c hc', hok⟩

/-- Inversion of the fetch loop: each row of a successful fetch comes from a
candle of some window's successful response. -/
theorem fetchWindows_ok_mem (t : String) (i : Nat) (resp : Window → ApiResponse)
    (ws : List Window) (rows : List CanonicalRow) (r : CanonicalRow)
    (h : fetchWindows t i resp ws = .ok rows) (hr : r ∈ rows) :
    ∃ w ∈ ws, ∃ data, resp w = .ok data ∧
      ∃ c ∈ data, normalizeCandle t i w.startTime c = .ok r := by
  induction ws generalizing rows with
  | nil =>
    simp only [fetchWindows] at h
    cases Except.ok.inj h
    simp at hr
  | cons w ws ih =>
    simp only [fetchWindows] at h
    cases hpw : processWindow t i w (resp w) with
    | error e => rw [hpw] at h; exact Except.noConfusion h
    | ok rows1 =>
      rw [hpw] at h
      cases hrest : fetchWindows t i resp ws with
      | error e => rw [hrest] at h; exact Except.noConfusion h
      | ok rows2 =>
        rw [hrest] at h
        cases Except.ok.inj h
        rcases List.mem_append.mp hr with h1 | h2
        · unfold processWindow at hpw
          cases hresp : resp w with
          | reqErr =>
            rw [hresp] at hpw
            cases Except.ok.inj hpw
            simp at h1
          | ok data =>
            rw [hresp] at hpw
            obtain ⟨c, hcmem, hcok⟩ := normalizeAll_ok_mem _ _ _ _ _ _ hpw h1
            exact ⟨w, by simp, data, hresp, c, hcmem, hcok⟩
        · obtain ⟨w', hw', rest⟩ := ih rows2 hrest h2
          exact ⟨w', List.mem_cons_of_mem w hw', rest⟩

/-- C4: every row of a successful `get_candles` fetch is the normalization of
some raw candle of some planned window: ticker and interval are the caller's,
date is the window's start date formatted yyMMdd, time is the candle's own
begin timestamp (positional field 6) with the date part stripped and the
colons removed, and OPEN/HIGH/LOW/CLOSE/VOL come from wire indices
0, 2, 3, 1, 5 respectively. -/
theorem c4_row_normalization (ticker : String) (interval : Nat) (s e : DateTime)
    (resp : Window → ApiResponse) (rows : List CanonicalRow) (row : CanonicalRow)
    (hok : get_candles ticker s e interval resp = .ok rows) (hrow : row ∈ rows) :
    ∃ w ∈ plan s e, ∃ data, resp w = .ok data ∧ ∃ c ∈ data, ∃ ts part,
      c.get? 6 = some (.jstr ts) ∧ (pySplit ts).get? 1 = some part ∧
      row.ticker = ticker ∧ row.per = interval ∧
      row.date = fmtYYMMDD w.startTime ∧ row.time = removeColons part ∧
      c.get? 0 = some row.openF ∧ c.get? 2 = some row.highF ∧
      c.get? 3 = some row.lowF ∧ c.get? 1 = some row.closeF ∧
      c.get? 5 = some row.volF := by
  obtain ⟨w, hw, data, hresp, c, hc, hnorm⟩ :=
    fetchWindows_ok_mem ticker interval resp (plan s e) rows row hok hrow
  obtain ⟨ts, part, hrest⟩ :=
    normalizeCandle_ok_fields ticker interval w.startTime c row hnorm
  exact ⟨w, hw, data, hresp, c, hc, ts, part, hrest⟩

/-- C4 (witness): a concrete single-window fetch whose one row is checked
against the theorem's characterization. -/
theorem c4_row_normalization_witness :
    get_candles "LKOH" ⟨2024, 12, 18, 10, 0, 0⟩ ⟨2024, 12, 18, 10, 30, 0⟩ 1
      (fun _ => ApiResponse.ok [[JVal.jnum 100, JVal.jnum 101, JVal.jnum 102, JVal.jnum 99,
        JVal.jnum 5, JVal.jnum 70, JVal.jstr "2024-12-18 10:15:00"]]) =
      .ok [⟨"LKOH", 1, "241218", "101500", JVal.jnum 100, JVal.jnum 102, JVal.jnum 99,
        JVal.jnum 101, JVal.jnum 70⟩] ∧
    (⟨"LKOH", 1, "241218", "101500", JVal.jnum 100, JVal.jnum 102, JVal.jnum 99,
        JVal.jnum 101, JVal.jnum 70⟩ : CanonicalRow) ∈
      [(⟨"LKOH", 1, "241218", "101500", JVal.jnum 100, JVal.jnum 102, JVal.jnum 99,
        JVal.jnum 101, JVal.jnum 70⟩ : CanonicalRow)] ∧
    (∃ w ∈ plan ⟨2024, 12, 18, 10, 0, 0⟩ ⟨2024, 12, 18, 10, 30, 0⟩, ∃ data,
      (fun (_ : Window) => ApiResponse.ok [[JVal.jnum 100, JVal.jnum 101, JVal.jnum 102,
        JVal.jnum 99, JVal.jnum 5, JVal.jnum 70, JVal.jstr "2024-12-18 10:15:00"]]) w =
          .ok data ∧
      ∃ c ∈ data, ∃ ts part,
        c.get? 6 = some (.jstr ts) ∧ (pySplit ts).get? 1 = some part ∧
        (⟨"LKOH", 1, "241218", "101500", JVal.jnum 100, JVal.jnum 102, JVal.jnum 99,
          JVal.jnum 101, JVal.jnum 70⟩ : CanonicalRow).ticker = "LKOH" ∧
        (⟨"LKOH", 1, "241218", "101500", JVal.jnum 100, JVal.jnum 102, JVal.jnum 99,
          JVal.jnum 101, JVal.jnum 70⟩ : CanonicalRow).per = 1 ∧
        (⟨"LKOH", 1, "241218", "101500", JVal.jnum 100, JVal.jnum 102, JVal.jnum 99,
          JVal.jnum 101, JVal.jnum 70⟩ : CanonicalRow).date = fmtYYMMDD w.startTime ∧
        (⟨"LKOH", 1, "241218", "101500", JVal.jnum 100, JVal.jnum 102, JVal.jnum 99,
          JVal.jnum 101, JVal.jnum 70⟩ : CanonicalRow).time = removeColons part ∧
        c.get? 0 = some (JVal.jnum 100) ∧ c.get? 2 = some (JVal.jnum 102) ∧
        c.get? 3 = some (JVal.jnum 99) ∧ c.get? 1 = some (JVal.jnum 101) ∧
        c.get? 5 = some (JVal.jnum 70)) :=
  ⟨by decide, by decide,
    c4_row_normalization "LKOH" 1 ⟨2024, 12, 18, 10, 0, 0⟩ ⟨2024, 12, 18, 10, 30, 0⟩
      (fun _ => ApiResponse.ok [[JVal.jnum 100, JVal.jnum 101, JVal.jnum 102, JVal.jnum 99,
        JVal.jnum 5, JVal.jnum 70, JVal.jstr "2024-12-18 10:15:00"]])
      [⟨"LKOH", 1, "241218", "101500", JVal.jnum 100, JVal.jnum 102, JVal.jnum 99,
        JVal.jnum 101, JVal.jnum 70⟩]
      ⟨"LKOH", 1, "241218", "101500", JVal.jnum 100, JVal.jnum 102, JVal.jnum 99,
        JVal.jnum 101, JVal.jnum 70⟩
      (by decide) (by decide)⟩

/-- Python `float(v)` on a JSON-decoded value: a JSON number converts exactly;
`float(None)` raises `TypeError` and `float` of a non-numeric string raises
`ValueError`, neither of which the callers catch.  (Numeric strings never
occur in the numeric fields of the history/candles sections, so string
parsing is not modelled.) -/
def pyFloat : JVal → Option Rat
  | .jnum q => some q
  | _ => none

/-- `float(row[i])`: an out-of-range index raises `IndexError`, a
non-numeric value raises in `float` - both uncaught by the callers. -/
def getFloatAt (row : List JVal) (i : Nat) : Except String Rat :=
  match row.get? i with
  | none => .error "IndexError: list index out of range"
  | some v =>
    match pyFloat v with
    | some q => .ok q
    | none => .error "TypeError: float() argument"

/-- The dict returned by `get_last_history_candle`/`get_last_candle`
(keys open/close/high/low/value/volume, all floats). -/
structure BarSummary where
  openF : Rat
  closeF : Rat
  highF : Rat
  lowF : Rat
  valueF : Rat
  volumeF : Rat
  deriving DecidableEq

/-- `get_last_history_candle` (src/py_moex.py lines 165-244) after instrument
resolution: one GET to the history endpoint (`sort_order=desc`, `limit=1`).
A raised `RequestException` is caught (`print`, `return None`); an empty
`history.data` yields `None`; otherwise the first row's positional fields
6, 11, 8, 7, 5, 12 are converted with `float` into open, close, high, low,
value, volume (in the source's evaluation order). -/
def get_last_history_candle (resp : ApiResponse) : Except String (Option BarSummary) :=
  match resp with
  | .reqErr => .ok none
  | .ok [] => .ok none
  | .ok (row :: _) =>
    match getFloatAt row 6 with
    | .error e => .error e
    | .ok o =>
      match getFloatAt row 11 with
      | .error e => .error e
      | .ok c =>
        match getFloatAt row 8 with
        | .error e => .error e
        | .ok h =>
          match getFloatAt row 7 with
          | .error e => .error e
          | .ok l =>
            match getFloatAt row 5 with
            | .error e => .error e
            | .ok v =>
              match getFloatAt row 12 with
              | .error e => .error e
              | .ok vol => .ok (some ⟨o, c, h, l, v, vol⟩)

/-- `get_last_candle` (src/py_moex.py lines 246-316) after instrument
resolution: one GET to the candles endpoint over the given window.  A raised
`RequestException` is caught (`print`, `return None`); an empty
`candles.data` yields `None`; otherwise the LAST row's positional fields
0..5 are converted with `float` into open, close, high, low, value,
volume. -/
def get_last_candle (resp : ApiResponse) : Except String (Option BarSummary) :=
  match resp with
  | .reqErr => .ok none
  | .ok data =>
    match data.getLast? with
    | none => .ok none
    | some last =>
      match getFloatAt last 0 with
      | .error e => .error e
      | .ok o =>
        match getFloatAt last 1 with
        | .error e => .error e
        | .ok c =>
          match getFloatAt last 2 with
          | .error e => .error e
          | .ok h =>
            match getFloatAt last 3 with
            | .error e => .error e
            | .ok l =>
              match getFloatAt last 4 with
              | .error e => .error e
              | .ok v =>
                match getFloatAt last 5 with
                | .error e => .error e
                | .ok vol => .ok (some ⟨o, c, h, l, v, vol⟩)

/-- C5 (counterexample): a transport error is NOT surfaced to the caller of
the single-request lookups: both `get_last_history_candle` and
`get_last_candle` catch the `RequestException` and return `None` - exactly
the value that also represents an empty result set, so the two outcomes are
conflated. -/
theorem c5_error_absent_conflated_counterexample :
    get_last_history_candle ApiResponse.reqErr = get_last_history_candle (ApiResponse.ok []) ∧
    get_last_candle ApiResponse.reqErr = get_last_candle (ApiResponse.ok []) ∧
    get_last_history_candle ApiResponse.reqErr = .ok none ∧
    get_last_candle ApiResponse.reqErr = .ok none := by
  decide

/-- C5 (amended): an empty result set is returned by the single-request
lookups as the distinct non-error outcome `None`; however, a
network/transport error in the lookup's own request is caught, logged and
ALSO returned as that same `None`, so absence and failure are conflated
rather than the failure being surfaced as an error. -/
theorem c5_absent_is_non_error_amended :
    get_last_history_candle (ApiResponse.ok []) = .ok none ∧
    get_last_candle (ApiResponse.ok []) = .ok none ∧
    get_last_history_candle ApiResponse.reqErr = .ok none ∧
    get_last_candle ApiResponse.reqErr = .ok none := by
  decide

/-- C7: for a non-empty history result, `get_last_history_candle` maps the
returned row's positional fields at indices 6, 7, 8, 11, 5, 12 to
open, low, high, close, value, volume respectively, each converted to
float. -/
theorem c7_history_field_mapping (row : List JVal) (rest : List (List JVal))
    (o l hi c v vol : Rat)
    (h6 : row.get? 6 = some (.jnum o)) (h7 : row.get? 7 = some (.jnum l))
    (h8 : row.get? 8 = some (.jnum hi)) (h11 : row.get? 11 = some (.jnum c))
    (h5 : row.get? 5 = some (.jnum v)) (h12 : row.get? 12 = some (.jnum vol)) :
    get_last_history_candle (.ok (row :: rest)) = .ok (some ⟨o, c, hi, l, v, vol⟩) := by
  have g6 : getFloatAt row 6 = .ok o := by unfold getFloatAt; rw [h6]; rfl
  have g7 : getFloatAt row 7 = .ok l := by unfold getFloatAt; rw [h7]; rfl
  have g8 : getFloatAt row 8 = .ok hi := by unfold getFloatAt; rw [h8]; rfl
  have g11 : getFloatAt row 11 = .ok c := by unfold getFloatAt; rw [h11]; rfl
  have g5 : getFloatAt row 5 = .ok v := by unfold getFloatAt; rw [h5]; rfl
  have g12 : getFloatAt row 12 = .ok vol := by unfold getFloatAt; rw [h12]; rfl
  simp [get_last_history_candle, g5, g6, g7, g8, g11, g12]

/-- The concrete LKOH history row quoted in the source's comment (trade date
2024-12-30). -/
def lkohHistoryRow : List JVal :=
  [.jstr "TQBR", .jstr "2024-12-30", .jstr "ЛУКОЙЛ", .jstr "LKOH", .jnum 53942,
   .jnum (11121299849/2), .jnum 7011, .jnum 7003, .jnum 7260, .jnum (14481/2),
   .jnum 7176, .jnum 7235, .jnum 774886, .jnum 7170, .jnum 7170, .jnull,
   .jnum 4876615920, .jnum 4876615920, .jnull, .jnum 0, .jnum 3, .jstr "SUR",
   .jnum (339/100)]

/-- C7 (witness): on the concrete LKOH row the result is
open 7011, close 7235, high 7260, low 7003, value 5560649924.5,
volume 774886. -/
theorem c7_history_field_mapping_witness :
    lkohHistoryRow.get? 6 = some (.jnum 7011) ∧
    lkohHistoryRow.get? 7 = some (.jnum 7003) ∧
    lkohHistoryRow.get? 8 = some (.jnum 7260) ∧
    lkohHistoryRow.get? 11 = some (.jnum 7235) ∧
    lkohHistoryRow.get? 5 = some (.jnum (11121299849/2)) ∧
    lkohHistoryRow.get? 12 = some (.jnum 774886) ∧
    get_last_history_candle (.ok [lkohHistoryRow]) =
      .ok (some ⟨7011, 7235, 7260, 7003, 11121299849/2, 774886⟩) :=
  ⟨rfl, rfl, rfl, rfl, rfl, rfl,
    c7_history_field_mapping lkohHistoryRow [] 7011 7003 7260 7235 (11121299849/2) 774886
      rfl rfl rfl rfl rfl rfl⟩

/-- `d - timedelta(days=1)` restricted to the date part. -/
def prevDay (d : DateTime) : DateTime :=
  if 1 < d.day then { d with day := d.day - 1 }
  else if 1 < d.month then { d with month := d.month - 1, day := daysInMonth d.year (d.month - 1) }
  else { d with year := d.year - 1, month := 12, day := 31 }

/-- `now - timedelta(minutes=15)`: exact calendar subtraction, borrowing a
day when the time of day is before 00:15:00. -/
def subMinutes15 (now : DateTime) : DateTime :=
  let s := now.hour * 3600 + now.minute * 60 + now.second
  if 900 ≤ s then
    { now with
        hour := (s - 900) / 3600
        minute := (s - 900) % 3600 / 60
        second := (s - 900) % 60 }
  else
    let p := prevDay now
    { p with
        hour := (s + 85500) / 3600
        minute := (s + 85500) % 3600 / 60
        second := (s + 85500) % 60 }

/-- `get_last_price` (src/py_moex.py lines 318-349): asks `get_last_candle`
for the window [`now - 15min`, `now`] at interval 1; if a bar came back,
returns its close; otherwise falls back to `get_last_history_candle` and
returns its close; otherwise `None`.  `fetchCandles` is the transport oracle
for the candles endpoint, keyed by the (from, till, interval) the code sends;
`fetchHistory` is the oracle for the history endpoint. -/
def get_last_price (now : DateTime)
    (fetchCandles : DateTime → DateTime → Nat → ApiResponse)
    (fetchHistory : ApiResponse) : Except String (Option Rat) :=
  match get_last_candle (fetchCandles (subMinutes15 now) now 1) with
  | .error e => .error e
  | .ok (some bar) => .ok (some bar.closeF)
  | .ok none =>
    match get_last_history_candle fetchHistory with
    | .error e => .error e
    | .ok (some bar) => .ok (some bar.closeF)
    | .ok none => .ok none

/-- C8: the fallback chain of `get_last_price`: first the intraday last bar
over [now-15min, now] at interval 1 (its close is returned if a bar is
present, whatever the history endpoint would say); otherwise the last
historical bar's close; otherwise `None`. -/
theorem c8_last_price_fallback_chain (now : DateTime)
    (fetchCandles : DateTime → DateTime → Nat → ApiResponse)
    (fetchHistory : ApiResponse) :
    (∀ bar, get_last_candle (fetchCandles (subMinutes15 now) now 1) = .ok (some bar) →
      get_last_price now fetchCandles fetchHistory = .ok (some bar.closeF)) ∧
    (get_last_candle (fetchCandles (subMinutes15 now) now 1) = .ok none →
      ∀ bar, get_last_history_candle fetchHistory = .ok (some bar) →
        get_last_price now fetchCandles fetchHistory = .ok (some bar.closeF)) ∧
    (get_last_candle (fetchCandles (subMinutes15 now) now 1) = .ok none →
      get_last_history_candle fetchHistory = .ok none →
      get_last_price now fetchCandles fetchHistory = .ok none) := by
  refine ⟨?_, ?_, ?_⟩
  · intro bar hbar
    simp [get_last_price, hbar]
  · intro hnone bar hbar
    simp [get_last_price, hnone, hbar]
  · intro hnone hhist
    simp [get_last_price, hnone, hhist]

/-- The concrete intraday candle row quoted in the source's comment
(2024-12-27 18:18). -/
def sampleIntradayCandle : List JVal :=
  [.jnum 6962, .jnum 6963, .jnum 6963, .jnum (13923/2), .jnum (974679/2),
   .jnum 70, .jstr "2024-12-27 18:18:00", .jstr "2024-12-27 18:18:59"]

/-- C8 (witness): with an intraday bar present, `get_last_price` returns its
close (6963) and never needs the history oracle (here a failing one). -/
theorem c8_last_price_fallback_chain_witness :
    get_last_candle ((fun (_ : DateTime) (_ : DateTime) (_ : Nat) =>
        ApiResponse.ok [sampleIntradayCandle]) (subMinutes15 ⟨2024, 12, 27, 18, 30, 0⟩)
        ⟨2024, 12, 27, 18, 30, 0⟩ 1) =
      .ok (some ⟨6962, 6963, 6963, 13923/2, 974679/2, 70⟩) ∧
    get_last_price ⟨2024, 12, 27, 18, 30, 0⟩
      (fun _ _ _ => ApiResponse.ok [sampleIntradayCandle]) ApiResponse.reqErr =
      .ok (some (6963 : Rat)) :=
  ⟨rfl,
    (c8_last_price_fallback_chain ⟨2024, 12, 27, 18, 30, 0⟩
        (fun _ _ _ => ApiResponse.ok [sampleIntradayCandle]) ApiResponse.reqErr).1
      ⟨6962, 6963, 6963, 13923/2, 974679/2, 70⟩ rfl⟩

/-- The `candles` argument of `get_candles_save`: either a DataFrame (its row
list) or a value of some other Python type (its type name, as interpolated
into the diagnostic). -/
inductive SaveInput where
  | df (rows : List CanonicalRow)
  | notDf (typeName : String)
  deriving DecidableEq

/-- The outcome `DataFrame.to_csv` would have for this call: success, or a
raised exception with its message. -/
inductive WriteResult where
  | writeOk
  | writeFail (msg : String)
  deriving DecidableEq

/-- Observable outcome of `get_candles_save`: whether the file write
completed and what diagnostics were printed. -/
structure SaveOutcome where
  wrote : Bool
  msgs : List String
  deriving DecidableEq

/-- `get_candles_save` (src/py_moex.py lines 140-163).  The default
`file_path` computation has no modelled effect.  A non-DataFrame argument is
reported and the function returns without writing; the `to_csv` call is
wrapped in `try`/`except Exception`, so a failing write is reported rather
than raised.  An `error` result would model an exception escaping to the
caller; no branch produces one. -/
def get_candles_save (candles : SaveInput) (write : WriteResult) :
    Except String SaveOutcome :=
  match candles with
  | .notDf typeName =>
    .ok { wrote := false
          msgs := ["Ошибка: ожидался DataFrame, но получен " ++ typeName ++ "."] }
  | .df _rows =>
    match write with
    | .writeOk => .ok { wrote := true, msgs := ["Данные успешно сохранены в файл"] }
    | .writeFail e => .ok { wrote := false, msgs := ["Ошибка при сохранении файла: " ++ e] }

/-- C9: `get_candles_save` returns normally for every input: it never
propagates an exception to its caller; a non-DataFrame `candles` argument
yields a diagnostic and no file write, and a failing file write is caught and
reported as a diagnostic rather than raised. -/
theorem c9_save_never_raises (candles : SaveInput) (write : WriteResult) :
    (∃ out, get_candles_save candles write = .ok out) ∧
    (∀ t, candles = .notDf t →
      ∃ out, get_candles_save candles write = .ok out ∧
        out.wrote = false ∧ out.msgs ≠ []) ∧
    (∀ e, write = .writeFail e →
      ∃ out, get_candles_save candles write = .ok out ∧
        out.wrote = false ∧ out.msgs ≠ []) := by
  cases candles <;> cases write <;> simp [get_candles_save]

/-- C9 (witness): the non-DataFrame case at a concrete input: a normal
return, no write, a diagnostic. -/
theorem c9_save_never_raises_witness :
    SaveInput.notDf "str" = SaveInput.notDf "str" ∧
    (∃ out, get_candles_save (SaveInput.notDf "str") WriteResult.writeOk = .ok out ∧
      out.wrote = false ∧ out.msgs ≠ []) :=
  ⟨rfl, (c9_save_never_raises (SaveInput.notDf "str") WriteResult.writeOk).2.1 "str" rfl⟩

/-- A Python value passed as the `ticker` argument: a string or a value of
some non-string type. -/
inductive PyArg where
  | pyStr (s : String)
  | pyInt (n : Int)
  | pyNone
  deriving DecidableEq

/-- `isinstance(ticker, str)`. -/
def isStr : PyArg → Bool
  | .pyStr _ => true
  | _ => false

/-- A parsed metadata response body: the `description.data` and `boards.data`
sections when present (`none` models a JSON object without that key). -/
structure SecJson where
  description : Option (List (List JVal))
  boards : Option (List (List JVal))
  deriving DecidableEq

/-- Outcome of the metadata request of `get_security_info`: a raised
`requests.RequestException`, a body that is not valid JSON (a `ValueError`
from `response.json()`), or a parsed body. -/
inductive SecResponse where
  | reqErr
  | badJson
  | ok (j : SecJson)
  deriving DecidableEq

/-- `row[i]` on a JSON row: an `IndexError` when out of range. -/
def getAt (row : List JVal) (i : Nat) : Except String JVal :=
  match row.get? i with
  | none => .error "IndexError: list index out of range"
  | some v => .ok v

/-- Python `dict` update `d[k] = v` on an association list with unique keys:
an existing key keeps its position and gets the new value, a new key is
appended. -/
def dictInsert : List (JVal × JVal) → JVal → JVal → List (JVal × JVal)
  | [], k, v => [(k, v)]
  | p :: rest, k, v =>
    if p.1 = k then (k, v) :: rest else p :: dictInsert rest k v

/-- Python `dict.get(k)` (returning `None`, here `none`, when absent). -/
def dictGet (m : List (JVal × JVal)) (k : JVal) : Option JVal :=
  match m with
  | [] => none
  | p :: rest => if p.1 = k then some p.2 else dictGet rest k

/-- The dict comprehension `{item[0]: item[2] for item in description.data}`
(src/py_moex.py line 46): keys inserted in row order, later occurrences of a
key overwriting earlier ones; a row shorter than 3 raises `IndexError`. -/
def buildDescDict (acc : List (JVal × JVal)) :
    List (List JVal) → Except String (List (JVal × JVal))
  | [] => .ok acc
  | item :: rest =>
    match getAt item 0 with
    | .error e => .error e
    | .ok k =>
      match getAt item 2 with
      | .error e => .error e
      | .ok v => buildDescDict (dictInsert acc k v) rest

/-- Python truthiness of a `dict.get` result, as used by
`if not all([secid, shortname, group])`: `None`, the empty string and the
number 0 are falsy. -/
def pyTruthy : Option JVal → Bool
  | none => false
  | some .jnull => false
  | some (.jstr s) => !(s == "")
  | some (.jnum q) => !(q == 0)

/-- The dict returned by `get_security_info`. -/
structure SecurityInfo where
  secid : JVal
  shortname : JVal
  group : JVal
  market : JVal
  engine : JVal
  deriving DecidableEq

/-- `get_security_info` (src/py_moex.py lines 6-69): the ticker type check,
then the metadata request, JSON decoding, section checks, description-dict
extraction with the `all(...)` truthiness check, and the boards checks with
positional extraction of `market` (column 5) and `engine` (column 7). -/
def get_security_info (ticker : PyArg) (resp : SecResponse) :
    Except String SecurityInfo :=
  match ticker with
  | .pyStr _ =>
    match resp with
    | .reqErr => .error "RuntimeError: request failed"
    | .badJson => .error "ValueError: JSON parse error"
    | .ok j =>
      match j.description, j.boards with
      | some desc, some boards =>
        match buildDescDict [] desc with
        | .error e => .error e
        | .ok dict =>
          let secid := dictGet dict (.jstr "SECID")
          let shortname := dictGet dict (.jstr "SHORTNAME")
          let group := dictGet dict (.jstr "GROUP")
          if pyTruthy secid && pyTruthy shortname && pyTruthy group then
            match boards with
            | [] => .error "ValueError: bad boards data"
            | row :: _ =>
              if row.length < 8 then .error "ValueError: bad boards data"
              else .ok { secid := secid.getD .jnull
                         shortname := shortname.getD .jnull
                         group := group.getD .jnull
                         market := row.getD 5 .jnull
                         engine := row.getD 7 .jnull }
          else .error "ValueError: missing description data"
      | _, _ => .error "ValueError: bad JSON format"
  | _ => .error "ValueError: ticker must be str"

/-- A well-formed metadata response accepted for the ticker LKOH. -/
def lkohSecResponse : SecResponse :=
  .ok { description := some [[.jstr "SECID", .jstr "string", .jstr "LKOH"],
          [.jstr "SHORTNAME", .jstr "string", .jstr "ЛУКОЙЛ"],
          [.jstr "GROUP", .jstr "string", .jstr "stock_shares"]]
        boards := some [[.jstr "TQBR", .jnum 1, .jstr "LKOH", .jnull, .jnull,
          .jstr "shares", .jnum 1, .jstr "stock"]] }

/-- C6 (counterexample): the empty string IS a string, so the only argument
check of `get_security_info` (`isinstance(ticker, str)`) accepts it; with a
well-formed response the call completes successfully instead of failing with
the claimed invalid-argument error. -/
theorem c6_empty_string_accepted_counterexample :
    get_security_info (PyArg.pyStr "") lkohSecResponse =
      .ok { secid := .jstr "LKOH", shortname := .jstr "ЛУКОЙЛ",
            group := .jstr "stock_shares", market := .jstr "shares",
            engine := .jstr "stock" } := by
  decide

/-- C6 (amended): `get_security_info` rejects with its invalid-argument error
exactly the non-string tickers; the empty string passes the argument check
and can complete successfully. -/
theorem c6_type_check_amended :
    (∀ t resp, isStr t = false →
      get_security_info t resp = .error "ValueError: ticker must be str") ∧
    (∃ resp info, get_security_info (PyArg.pyStr "") resp = .ok info) := by
  constructor
  · intro t resp h
    cases t with
    | pyStr s => simp [isStr] at h
    | pyInt n => rfl
    | pyNone => rfl
  · exact ⟨lkohSecResponse,
      { secid := .jstr "LKOH", shortname := .jstr "ЛУКОЙЛ",
        group := .jstr "stock_shares", market := .jstr "shares",
        engine := .jstr "stock" }, by decide⟩

/-- C6 (witness): a concrete non-string ticker is rejected with the
invalid-argument error. -/
theorem c6_type_check_amended_witness :
    isStr (PyArg.pyInt 5) = false ∧
    get_security_info (PyArg.pyInt 5) SecResponse.reqErr =
      .error "ValueError: ticker must be str" :=
  ⟨by decide, c6_type_check_amended.1 (PyArg.pyInt 5) SecResponse.reqErr (by decide)⟩

/-- The last row of `rows` whose field name (entry 0) equals `k`. -/
def lastMatch (rows : List (List JVal)) (k : JVal) : Option (List JVal) :=
  match rows with
  | [] => none
  | item :: rest =>
    match lastMatch rest k with
    | some r => some r
    | none => if item.get? 0 = some k then some item else none

theorem dictGet_insert_self (m : List (JVal × JVal)) (k v : JVal) :
    dictGet (dictInsert m k v) k = some v := by
  induction m with
  | nil => simp [dictInsert, dictGet]
  | cons p rest ih =>
    by_cases h : p.1 = k
    · simp [dictInsert, h, dictGet]
    · simp [dictInsert, h, dictGet, ih]

theorem dictGet_insert_ne (m : List (JVal × JVal)) (k0 v k : JVal) (h : k0 ≠ k) :
    dictGet (dictInsert m k0 v) k = dictGet m k := by
  induction m with
  | nil => simp [dictInsert, dictGet, h]
  | cons p rest ih =>
    by_cases hp : p.1 = k0
    · simp [dictInsert, hp, dictGet, h, hp ▸ h]
    · simp [dictInsert, hp, dictGet, ih]

/-- Lookup in the dict built by the comprehension: the last row carrying the
key wins; keys never written fall back to the accumulator. -/
theorem buildDescDict_lookup (rows : List (List JVal)) (acc m : List (JVal × JVal))
    (k : JVal) (hm : buildDescDict acc rows = .ok m) :
    dictGet m k =
      match lastMatch rows k with
      | some item => item.get? 2
      | none => dictGet acc k := by
  induction rows generalizing acc with
  | nil =>
    cases Except.ok.inj hm
    rfl
  | cons item rest ih =>
    simp only [buildDescDict] at hm
    cases h0 : getAt item 0 with
    | error e => rw [h0] at hm; exact Except.noConfusion hm
    | ok k0 =>
      rw [h0] at hm
      cases h2 : getAt item 2 with
      | error e => rw [h2] at hm; exact Except.noConfusion hm
      | ok v0 =>
        rw [h2] at hm
        have hrec := ih (dictInsert acc k0 v0) hm
        have hget0 : item.get? 0 = some k0 := by
          unfold getAt at h0
          cases hx : item.get? 0 with
          | none => rw [hx] at h0; exact Except.noConfusion h0
          | some w => rw [hx] at h0; exact congrArg some (Except.ok.inj h0)
        have hget2 : item.get? 2 = some v0 := by
          unfold getAt at h2
          cases hx : item.get? 2 with
          | none => rw [hx] at h2; exact Except.noConfusion h2
          | some w => rw [hx] at h2; exact congrArg some (Except.ok.inj h2)
        simp only [lastMatch]
        cases hlm : lastMatch rest k with
        | some r => rw [hlm] at hrec; exact hrec
        | none =>
          rw [hlm] at hrec
          by_cases hik : item.get? 0 = some k
          · have hk0 : k0 = k := by
              rw [hget0] at hik
              exact Option.some.inj hik
            subst hk0
            rw [if_pos hik, hrec, dictGet_insert_self]
            exact hget2.symm
          · have hk0 : k0 ≠ k := by
              intro hEq
              exact hik (hEq ▸ hget0)
            rw [if_neg hik, hrec, dictGet_insert_ne _ _ _ _ hk0]

/-- A cons has the last element of its (non-empty) tail. -/
theorem getLast?_cons_of_ne_nil {α : Type} (a : α) (l : List α) (h : l ≠ []) :
    (a :: l).getLast? = l.getLast? := by
  cases l with
  | nil => exact absurd rfl h
  | cons b bs => exact List.getLast?_cons_cons

/-- `lastMatch` agrees with taking the last element of the filtered rows. -/
theorem lastMatch_eq_filter_getLast (rows : List (List JVal)) (k : JVal) :
    lastMatch rows k =
      (rows.filter (fun item => decide (item.get? 0 = some k))).getLast? := by
  induction rows with
  | nil => rfl
  | cons item rest ih =>
    simp only [lastMatch, List.filter_cons]
    by_cases hik : item.get? 0 = some k
    · rw [if_pos (decide_eq_true hik)]
      cases hlm : lastMatch rest k with
      | some r =>
        rw [hlm] at ih
        have hne : rest.filter (fun it => decide (it.get? 0 = some k)) ≠ [] := by
          intro h0
          rw [h0] at ih
          exact Option.noConfusion ih
        rw [getLast?_cons_of_ne_nil _ _ hne]
        exact ih
      | none =>
        rw [hlm] at ih
        have hempty : rest.filter (fun it => decide (it.get? 0 = some k)) = [] :=
          List.getLast?_eq_none_iff.mp ih.symm
        rw [hempty, if_pos hik]
        rfl
    · rw [if_neg (fun hc => hik (of_decide_eq_true hc))]
      cases hlm : lastMatch rest k with
      | some r =>
        rw [hlm] at ih
        exact ih
      | none =>
        rw [hlm] at ih
        rw [if_neg hik]
        exact ih

/-- C10: when the description section contains several [field, type, value]
triples with the same field name, the value `get_security_info` extracts for
that name is the one of the LAST such triple: the dict comprehension lets
later occurrences overwrite earlier ones. -/
theorem c10_description_last_wins (rows : List (List JVal))
    (m : List (JVal × JVal)) (k : JVal)
    (hm : buildDescDict [] rows = .ok m) :
    dictGet m k = (lastMatch rows k).bind (fun item => item.get? 2) ∧
    lastMatch rows k =
      (rows.filter (fun item => decide (item.get? 0 = some k))).getLast? := by
  constructor
  · rw [buildDescDict_lookup rows [] m k hm]
    cases lastMatch rows k <;> rfl
  · exact lastMatch_eq_filter_getLast rows k

/-- C10 (witness): two SECID triples; the extracted value is the second
one. -/
theorem c10_description_last_wins_witness :
    buildDescDict []
      [[JVal.jstr "SECID", JVal.jstr "string", JVal.jstr "AAA"],
       [JVal.jstr "SECID", JVal.jstr "string", JVal.jstr "BBB"]] =
      .ok [(JVal.jstr "SECID", JVal.jstr "BBB")] ∧
    (dictGet [(JVal.jstr "SECID", JVal.jstr "BBB")] (JVal.jstr "SECID") =
      (lastMatch
        [[JVal.jstr "SECID", JVal.jstr "string", JVal.jstr "AAA"],
         [JVal.jstr "SECID", JVal.jstr "string", JVal.jstr "BBB"]]
        (JVal.jstr "SECID")).bind (fun item => item.get? 2) ∧
     lastMatch
        [[JVal.jstr "SECID", JVal.jstr "string", JVal.jstr "AAA"],
         [JVal.jstr "SECID", JVal.jstr "string", JVal.jstr "BBB"]]
        (JVal.jstr "SECID") =
      ([[JVal.jstr "SECID", JVal.jstr "string", JVal.jstr "AAA"],
        [JVal.jstr "SECID", JVal.jstr "string", JVal.jstr "BBB"]].filter
          (fun item => decide (item.get? 0 = some (JVal.jstr "SECID")))).getLast?) :=
  ⟨by decide,
    c10_description_last_wins
      [[JVal.jstr "SECID", JVal.jstr "string", JVal.jstr "AAA"],
       [JVal.jstr "SECID", JVal.jstr "string", JVal.jstr "BBB"]]
      [(JVal.jstr "SECID", JVal.jstr "BBB")] (JVal.jstr "SECID") (by decide)⟩

end PyMoex
